import Mathlib

/-!
Verification of the reconciliation / filter-pipeline core of
create_filter_cascade/certs_to_crlite.py.

The Python program is embedded shallowly:

* a per-issuer file on disk is a `FileContent` (absent, unparseable, or a
  parsed JSON list of serial strings);
* `getCertList` mirrors the accessor of the same name: `none` when the file
  is missing or fails to parse, otherwise the set of aki-prefixed serials
  (a Python `set`, modelled as a deduplicated list);
* `genCertLists` mirrors the two `os.walk` loops: the walk of the known
  directory is an input list of (aki, file content) entries, the per-aki
  lookup `revokedPath/<aki>.revoked` is an input function, and the walk of
  the revoked directory is a second entry list;
* the mutable `stats` dictionary and the two growing cert lists are an
  explicit state record threaded through `List.foldl`;
* the key-list cache (`saveCertLists` / `loadCertLists`) acts on file
  contents as strings, with Python text-line iteration made explicit;
* the float arithmetic of `getFPRs` is modelled over the reals.
-/

namespace CertsToCrlite

/-- Content found at one file path of the record store: the file can be
missing, present but not valid JSON, or a parsed list of serial strings. -/
inductive FileContent where
  | absent : FileContent
  | unparseable : FileContent
  | serials (l : List String) : FileContent
deriving DecidableEq

/-- Embeds `getCertList(certpath, aki)` (lines 53-64): `None` when the file
is missing (`os.path.isfile` fails) or `json.load` raises, otherwise the
Python set `{aki + str(s) for s in serials}`, modelled as the deduplicated
list of aki-prefixed serials. -/
def getCertList (content : FileContent) (aki : String) : Option (List String) :=
  match content with
  | .absent => none
  | .unparseable => none
  | .serials l => some ((l.map (fun s => aki ++ s)).dedup)

/-- Python truthiness of an optional list: `if certlist:` is false for
`None` and for an empty set. -/
def pyTruthy (o : Option (List String)) : Bool :=
  match o with
  | none => false
  | some l => !l.isEmpty

/-- The list a variable holds after the idiom
`x = getCertList(...); if x: ... else: x = set()`:
the loaded list when truthy, the empty set otherwise. -/
def pyListOr (o : Option (List String)) : List String :=
  if pyTruthy o then o.getD [] else []

/-- Per-AKI entry of the stats dictionary (`initAKIStats`, lines 66-73). -/
structure AKIStats where
  known : Nat
  revoked : Nat
  knownnotrevoked : Nat
  knownrevoked : Nat
  crl : Bool
deriving DecidableEq

/-- Embeds `initAKIStats`: the fresh all-zero, no-CRL record. -/
def initAKIStats : AKIStats :=
  { known := 0, revoked := 0, knownnotrevoked := 0, knownrevoked := 0, crl := false }

/-- Global statistics dictionary as initialised at the top of
`genCertLists` (lines 76-81); `akis` is the `AKIs` sub-dictionary. -/
structure Stats where
  knownrevoked : Nat
  knownnotrevoked : Nat
  revoked : Nat
  known : Nat
  nocrl : Nat
  akis : String → Option AKIStats

/-- Point update of the AKIs dictionary at a key that is already present:
`stats[AKIs][aki][field] = v`. -/
def updAKI (f : String → Option AKIStats) (aki : String) (g : AKIStats → AKIStats) :
    String → Option AKIStats :=
  fun a => if a = aki then (f aki).map g else f a

/-- Mutable state of `genCertLists`: the stats dictionary, the two global
cert sequences and the `processedAKIs` set. -/
structure GState where
  stats : Stats
  revokedCerts : List String
  nonrevokedCerts : List String
  processedAKIs : List String

/-- Inputs of `genCertLists`: the exclusion list, the walk of the known
directory as (aki, content of that file) entries in traversal order, the
content found at `revokedPath/<aki>.revoked` for each aki, and the walk of
the revoked directory. -/
structure Args where
  excludeaki : List String
  knownWalk : List (String × FileContent)
  revokedOf : String → FileContent
  revokedWalk : List (String × FileContent)

/-- Stats updates of one iteration of the known-directory loop
(lines 94-125), in source order: `initAKIStats`; `if knownlist:` add to the
global known counter, else use the empty set; record the per-AKI known
count; `if revlist:` add to the global revoked counter and set `crl`, else
bump `nocrl` and use the empty set; record the per-AKI revoked count; then
record the four reconciliation counts. -/
def knownEntryStats (stats : Stats) (aki : String) (knownOpt revOpt : Option (List String)) :
    Stats :=
  let st0 := { stats with akis := fun a => if a = aki then some initAKIStats else stats.akis a }
  let knownlist := pyListOr knownOpt
  let st1 := if pyTruthy knownOpt then { st0 with known := st0.known + knownlist.length } else st0
  let st2 := { st1 with akis := updAKI st1.akis aki (fun r => { r with known := knownlist.length }) }
  let revlist := pyListOr revOpt
  let st3 :=
    if pyTruthy revOpt then
      { st2 with revoked := st2.revoked + revlist.length,
                 akis := updAKI st2.akis aki (fun r => { r with crl := true }) }
    else { st2 with nocrl := st2.nocrl + 1 }
  let st4 := { st3 with akis := updAKI st3.akis aki (fun r => { r with revoked := revlist.length }) }
  let knownNotRevoked := knownlist.filter (fun x => !decide (x ∈ revlist))
  let knownRevoked := knownlist.filter (fun x => decide (x ∈ revlist))
  { st4 with
    knownnotrevoked := st4.knownnotrevoked + knownNotRevoked.length,
    knownrevoked := st4.knownrevoked + knownRevoked.length,
    akis := updAKI st4.akis aki
      (fun r => { r with knownnotrevoked := knownNotRevoked.length,
                         knownrevoked := knownRevoked.length }) }

/-- One iteration of the known-directory loop (lines 89-132): skip excluded
akis; otherwise compute the effective known and revoked lists, update the
stats, mark the aki processed, and extend the global sequences with
`knownRevoked = knownlist & revlist` and `knownNotRevoked = knownlist - revlist`. -/
def processKnownEntry (args : Args) (s : GState) (e : String × FileContent) : GState :=
  if e.1 ∈ args.excludeaki then s else
  let aki := e.1
  let knownOpt := getCertList e.2 aki
  let revOpt := getCertList (args.revokedOf aki) aki
  let knownlist := pyListOr knownOpt
  let revlist := pyListOr revOpt
  let knownNotRevoked := knownlist.filter (fun x => !decide (x ∈ revlist))
  let knownRevoked := knownlist.filter (fun x => decide (x ∈ revlist))
  { stats := knownEntryStats s.stats aki knownOpt revOpt,
    revokedCerts := s.revokedCerts ++ knownRevoked,
    nonrevokedCerts := s.nonrevokedCerts ++ knownNotRevoked,
    processedAKIs := aki :: s.processedAKIs }

/-- Stats updates of one iteration of the revoked-directory loop
(lines 141-152): `initAKIStats`; when the load returns `None` only `nocrl`
is bumped, otherwise the revocations are counted and `crl` set. -/
def revokedEntryStats (stats : Stats) (aki : String) (revOpt : Option (List String)) : Stats :=
  let st0 := { stats with akis := fun a => if a = aki then some initAKIStats else stats.akis a }
  match revOpt with
  | none => { st0 with nocrl := st0.nocrl + 1 }
  | some revlist =>
    { st0 with revoked := st0.revoked + revlist.length,
               akis := updAKI (updAKI st0.akis aki (fun r => { r with crl := true })) aki
                 (fun r => { r with revoked := revlist.length }) }

/-- One iteration of the revoked-directory loop (lines 135-155): skip
excluded akis and akis already processed in the known loop; otherwise only
the stats change — the commented-out `revoked_certs.extend(revlist)` means
neither global sequence is touched, and `processedAKIs` is not extended. -/
def processRevokedEntry (args : Args) (s : GState) (e : String × FileContent) : GState :=
  if e.1 ∈ args.excludeaki then s
  else if e.1 ∈ s.processedAKIs then s
  else { s with stats := revokedEntryStats s.stats e.1 (getCertList e.2 e.1) }

/-- Stats dictionary as `genCertLists` initialises it (lines 76-81). -/
def initStats : Stats :=
  { knownrevoked := 0, knownnotrevoked := 0, revoked := 0, known := 0, nocrl := 0,
    akis := fun _ => none }

/-- Initial reconciliation state: fresh stats, the empty sequences main
passes in, and no processed akis. -/
def initGState : GState :=
  { stats := initStats, revokedCerts := [], nonrevokedCerts := [], processedAKIs := [] }

/-- Embeds `genCertLists` (lines 75-159): the known-directory loop followed
by the revoked-directory loop. -/
def genCertLists (args : Args) : GState :=
  let s1 := args.knownWalk.foldl (processKnownEntry args) initGState
  args.revokedWalk.foldl (processRevokedEntry args) s1

/-- Fingerprint set an issuer file contributes, as a list: empty when the
file is absent or unparseable, the aki-prefixed serials otherwise. -/
def fingerprintsOf (content : FileContent) (aki : String) : List String :=
  (getCertList content aki).getD []

/-- Per-issuer set `knownRevoked = known ∩ revoked` for a known-walk entry. -/
def issuerKnownRevoked (args : Args) (e : String × FileContent) : List String :=
  (fingerprintsOf e.2 e.1).filter
    (fun x => decide (x ∈ fingerprintsOf (args.revokedOf e.1) e.1))

/-- Per-issuer set `knownNotRevoked = known − revoked` for a known-walk entry. -/
def issuerKnownNotRevoked (args : Args) (e : String × FileContent) : List String :=
  (fingerprintsOf e.2 e.1).filter
    (fun x => !decide (x ∈ fingerprintsOf (args.revokedOf e.1) e.1))

/-- Entries of the known walk that survive the exclusion test. -/
def activeKnownWalk (args : Args) : List (String × FileContent) :=
  args.knownWalk.filter (fun e => !decide (e.1 ∈ args.excludeaki))

lemma pyListOr_eq_getD (o : Option (List String)) : pyListOr o = o.getD [] := by
  cases o with
  | none => rfl
  | some l => cases l <;> simp [pyListOr, pyTruthy]

lemma pyListOr_getCertList (c : FileContent) (aki : String) :
    pyListOr (getCertList c aki) = fingerprintsOf c aki := by
  rw [pyListOr_eq_getD]; rfl

lemma fingerprintsOf_nodup (c : FileContent) (aki : String) :
    (fingerprintsOf c aki).Nodup := by
  cases c <;> simp [fingerprintsOf, getCertList, List.nodup_dedup]

lemma processKnownEntry_revokedCerts (args : Args) (s : GState) (e : String × FileContent) :
    (processKnownEntry args s e).revokedCerts =
      s.revokedCerts ++ (if e.1 ∈ args.excludeaki then [] else issuerKnownRevoked args e) := by
  by_cases h : e.1 ∈ args.excludeaki
  · simp [processKnownEntry, h]
  · simp [processKnownEntry, h, issuerKnownRevoked, pyListOr_getCertList]

lemma processKnownEntry_nonrevokedCerts (args : Args) (s : GState) (e : String × FileContent) :
    (processKnownEntry args s e).nonrevokedCerts =
      s.nonrevokedCerts ++ (if e.1 ∈ args.excludeaki then [] else issuerKnownNotRevoked args e) := by
  by_cases h : e.1 ∈ args.excludeaki
  · simp [processKnownEntry, h]
  · simp [processKnownEntry, h, issuerKnownNotRevoked, pyListOr_getCertList]

lemma foldl_known_revokedCerts (args : Args) (walk : List (String × FileContent)) :
    ∀ s : GState, (walk.foldl (processKnownEntry args) s).revokedCerts =
      s.revokedCerts ++
        (walk.filter (fun e => !decide (e.1 ∈ args.excludeaki))).flatMap
          (issuerKnownRevoked args) := by
  induction walk with
  | nil => intro s; simp
  | cons e tl ih =>
    intro s
    rw [List.foldl_cons, ih, processKnownEntry_revokedCerts]
    by_cases h : e.1 ∈ args.excludeaki
    · simp [h, List.filter_cons]
    · simp [h, List.filter_cons, List.append_assoc]

lemma foldl_known_nonrevokedCerts (args : Args) (walk : List (String × FileContent)) :
    ∀ s : GState, (walk.foldl (processKnownEntry args) s).nonrevokedCerts =
      s.nonrevokedCerts ++
        (walk.filter (fun e => !decide (e.1 ∈ args.excludeaki))).flatMap
          (issuerKnownNotRevoked args) := by
  induction walk with
  | nil => intro s; simp
  | cons e tl ih =>
    intro s
    rw [List.foldl_cons, ih, processKnownEntry_nonrevokedCerts]
    by_cases h : e.1 ∈ args.excludeaki
    · simp [h, List.filter_cons]
    · simp [h, List.filter_cons, List.append_assoc]

lemma processRevokedEntry_seqs (args : Args) (s : GState) (e : String × FileContent) :
    (processRevokedEntry args s e).revokedCerts = s.revokedCerts ∧
    (processRevokedEntry args s e).nonrevokedCerts = s.nonrevokedCerts := by
  unfold processRevokedEntry
  split
  · exact ⟨rfl, rfl⟩
  · split
    · exact ⟨rfl, rfl⟩
    · exact ⟨rfl, rfl⟩

lemma foldl_revoked_seqs (args : Args) (walk : List (String × FileContent)) :
    ∀ s : GState, (walk.foldl (processRevokedEntry args) s).revokedCerts = s.revokedCerts ∧
      (walk.foldl (processRevokedEntry args) s).nonrevokedCerts = s.nonrevokedCerts := by
  induction walk with
  | nil => intro s; exact ⟨rfl, rfl⟩
  | cons e tl ih =>
    intro s
    rw [List.foldl_cons]
    rcases ih (processRevokedEntry args s e) with ⟨h1, h2⟩
    rcases processRevokedEntry_seqs args s e with ⟨g1, g2⟩
    exact ⟨h1.trans g1, h2.trans g2⟩

lemma genCertLists_revokedCerts (args : Args) :
    (genCertLists args).revokedCerts =
      (activeKnownWalk args).flatMap (issuerKnownRevoked args) := by
  unfold genCertLists activeKnownWalk
  rw [(foldl_revoked_seqs args args.revokedWalk _).1, foldl_known_revokedCerts]
  simp [initGState]

lemma genCertLists_nonrevokedCerts (args : Args) :
    (genCertLists args).nonrevokedCerts =
      (activeKnownWalk args).flatMap (issuerKnownNotRevoked args) := by
  unfold genCertLists activeKnownWalk
  rw [(foldl_revoked_seqs args args.revokedWalk _).2, foldl_known_nonrevokedCerts]
  simp [initGState]

/-- C1: for every issuer enumerated from the known directory and not
excluded, with the known set empty when its file is absent or unparseable
and the revoked set empty when its load returns absent, the engine appends
exactly the members of `knownRevoked = known ∩ revoked` to the global
revoked sequence and exactly the members of `knownNotRevoked = known −
revoked` to the global non-revoked sequence, and nothing else of that
issuer enters either sequence: the two global sequences are precisely the
concatenations of these per-issuer sets over the known walk. -/
theorem genCertLists_appends_exactly_reconciled_sets (args : Args) :
    (genCertLists args).revokedCerts =
      (activeKnownWalk args).flatMap (issuerKnownRevoked args) ∧
    (genCertLists args).nonrevokedCerts =
      (activeKnownWalk args).flatMap (issuerKnownNotRevoked args) ∧
    (∀ e : String × FileContent, ∀ x : String,
      x ∈ issuerKnownRevoked args e ↔
        x ∈ fingerprintsOf e.2 e.1 ∧ x ∈ fingerprintsOf (args.revokedOf e.1) e.1) ∧
    (∀ e : String × FileContent, ∀ x : String,
      x ∈ issuerKnownNotRevoked args e ↔
        x ∈ fingerprintsOf e.2 e.1 ∧ x ∉ fingerprintsOf (args.revokedOf e.1) e.1) := by
  refine ⟨genCertLists_revokedCerts args, genCertLists_nonrevokedCerts args, ?_, ?_⟩
  · intro e x; simp [issuerKnownRevoked, List.mem_filter]
  · intro e x; simp [issuerKnownNotRevoked, List.mem_filter]

/-- Boolean test that no fingerprint of the first entry is a fingerprint of
the second entry. -/
def fpDisjointB (e1 e2 : String × FileContent) : Bool :=
  (fingerprintsOf e1.2 e1.1).all (fun x => !decide (x ∈ fingerprintsOf e2.2 e2.1))

/-- Boolean test that the fingerprint sets of the walk entries are pairwise
disjoint: the hypothesis under which concatenating aki and serial really
gives fingerprints unique across issuers. -/
def pairwiseFpDisjoint : List (String × FileContent) → Bool
  | [] => true
  | e :: rest => (rest.all (fpDisjointB e)) && pairwiseFpDisjoint rest

lemma fpDisjointB_disjoint {e1 e2 : String × FileContent} (h : fpDisjointB e1 e2 = true) :
    (fingerprintsOf e1.2 e1.1).Disjoint (fingerprintsOf e2.2 e2.1) := by
  intro a ha1 ha2
  have := (List.all_eq_true.1 h) a ha1
  simp at this
  exact this ha2

lemma pairwiseFpDisjoint_pairwise {l : List (String × FileContent)}
    (h : pairwiseFpDisjoint l = true) :
    l.Pairwise (fun e1 e2 =>
      (fingerprintsOf e1.2 e1.1).Disjoint (fingerprintsOf e2.2 e2.1)) := by
  induction l with
  | nil => exact List.Pairwise.nil
  | cons e tl ih =>
    rw [pairwiseFpDisjoint, Bool.and_eq_true] at h
    refine List.Pairwise.cons ?_ (ih h.2)
    intro e2 he2
    exact fpDisjointB_disjoint ((List.all_eq_true.1 h.1) e2 he2)

lemma issuerKnownRevoked_subset (args : Args) (e : String × FileContent) :
    issuerKnownRevoked args e ⊆ fingerprintsOf e.2 e.1 := by
  intro x hx
  exact (List.mem_filter.1 hx).1

lemma issuerKnownNotRevoked_subset (args : Args) (e : String × FileContent) :
    issuerKnownNotRevoked args e ⊆ fingerprintsOf e.2 e.1 := by
  intro x hx
  exact (List.mem_filter.1 hx).1

lemma issuerKnownRevoked_nodup (args : Args) (e : String × FileContent) :
    (issuerKnownRevoked args e).Nodup :=
  (fingerprintsOf_nodup e.2 e.1).filter _

lemma issuerKnownNotRevoked_nodup (args : Args) (e : String × FileContent) :
    (issuerKnownNotRevoked args e).Nodup :=
  (fingerprintsOf_nodup e.2 e.1).filter _

lemma issuer_sets_disjoint (args : Args) (e : String × FileContent) :
    (issuerKnownRevoked args e).Disjoint (issuerKnownNotRevoked args e) := by
  intro a ha1 ha2
  have h1 := (List.mem_filter.1 ha1).2
  have h2 := (List.mem_filter.1 ha2).2
  simp at h1 h2
  exact h2 h1

/-- C2 (amended): when the fingerprint sets of the surviving known-walk
entries are pairwise disjoint — in particular no two issuers produce the
same aki-prefixed string and no issuer occurs twice with overlapping
fingerprints — the two global sequences contain no duplicate fingerprint
and are disjoint from each other. Without that hypothesis the claim fails,
because string concatenation is not injective across issuers. -/
theorem genCertLists_sequences_disjoint_nodup (args : Args)
    (hd : pairwiseFpDisjoint (activeKnownWalk args) = true) :
    (genCertLists args).revokedCerts.Nodup ∧
    (genCertLists args).nonrevokedCerts.Nodup ∧
    (genCertLists args).revokedCerts.Disjoint (genCertLists args).nonrevokedCerts := by
  have hp := pairwiseFpDisjoint_pairwise hd
  rw [genCertLists_revokedCerts args, genCertLists_nonrevokedCerts args]
  refine ⟨?_, ?_, ?_⟩
  · rw [List.nodup_flatMap]
    refine ⟨fun e _ => issuerKnownRevoked_nodup args e, ?_⟩
    refine hp.imp ?_
    intro e1 e2 h a ha1 ha2
    exact h (issuerKnownRevoked_subset args e1 ha1) (issuerKnownRevoked_subset args e2 ha2)
  · rw [List.nodup_flatMap]
    refine ⟨fun e _ => issuerKnownNotRevoked_nodup args e, ?_⟩
    refine hp.imp ?_
    intro e1 e2 h a ha1 ha2
    exact h (issuerKnownNotRevoked_subset args e1 ha1) (issuerKnownNotRevoked_subset args e2 ha2)
  · intro a haR haN
    rcases List.mem_flatMap.1 haR with ⟨e1, he1, hx1⟩
    rcases List.mem_flatMap.1 haN with ⟨e2, he2, hx2⟩
    by_cases heq : e1 = e2
    · subst heq
      exact issuer_sets_disjoint args e1 hx1 hx2
    · have hsym : Symmetric (fun e1 e2 : String × FileContent =>
          (fingerprintsOf e1.2 e1.1).Disjoint (fingerprintsOf e2.2 e2.1)) := by
        intro x y h a ha1 ha2
        exact h ha2 ha1
      have := hp.forall hsym he1 he2 heq
      exact this (issuerKnownRevoked_subset args e1 hx1)
        (issuerKnownNotRevoked_subset args e2 hx2)

/-- Record store exhibiting the fingerprint collision: issuer A with serial
12 and issuer A1 with serial 2 both produce the fingerprint A12; A has no
revocation file while A1 revokes its serial 2. -/
def c2args : Args :=
  { excludeaki := [],
    knownWalk := [("A", .serials ["12"]), ("A1", .serials ["2"])],
    revokedOf := fun a => if a = "A1" then .serials ["2"] else .absent,
    revokedWalk := [] }

/-- C2 fails as stated: on `c2args` the fingerprint A12 is appended to both
global sequences, so they are neither disjoint nor free of shared
fingerprints — aki-prefixing does not give uniqueness across issuers. -/
theorem genCertLists_sequences_not_disjoint_on_collision :
    "A12" ∈ (genCertLists c2args).revokedCerts ∧
    "A12" ∈ (genCertLists c2args).nonrevokedCerts := by decide

/-- Record store with two issuers whose fingerprint sets really are
disjoint: A knows serials 1 and 2 and revokes 2, B knows serial 1. -/
def c2wargs : Args :=
  { excludeaki := [],
    knownWalk := [("A", .serials ["1", "2"]), ("B", .serials ["1"])],
    revokedOf := fun a => if a = "A" then .serials ["2"] else .absent,
    revokedWalk := [] }

/-- Witness instantiating the amended C2 at the concrete store `c2wargs`. -/
theorem genCertLists_sequences_disjoint_nodup_witness :
    (genCertLists c2wargs).revokedCerts.Nodup ∧
    (genCertLists c2wargs).nonrevokedCerts.Nodup ∧
    (genCertLists c2wargs).revokedCerts.Disjoint (genCertLists c2wargs).nonrevokedCerts :=
  genCertLists_sequences_disjoint_nodup c2wargs (by decide)

lemma knownEntryStats_nocrl (stats : Stats) (aki : String)
    (knownOpt revOpt : Option (List String)) :
    (knownEntryStats stats aki knownOpt revOpt).nocrl =
      if pyTruthy revOpt then stats.nocrl else stats.nocrl + 1 := by
  by_cases hk : pyTruthy knownOpt <;> by_cases hr : pyTruthy revOpt <;>
    simp [knownEntryStats, hk, hr]

/-- Record store of C3: issuer A knows serial 1 and its revocation file
exists but parses to the empty list. -/
def c3args : Args :=
  { excludeaki := [],
    knownWalk := [("A", .serials ["1"])],
    revokedOf := fun _ => .serials [],
    revokedWalk := [("A", .serials [])] }

/-- Evaluation of the engine at the failing input of C3: issuer A has a
revocation file that parses to the empty list, yet the code records
crl = false and bumps nocrl, because line 110 tests Python truthiness
(`if revlist:`) rather than presence; the per-issuer revoked count is 0 and
the whole known set does go to the non-revoked sequence as the claim says.
The second walk (lines 145-151) treats the same situation with an explicit
`revlist == None` test and would set crl = true for an empty list, as does
the stats header comment — the first walk contradicts them. -/
theorem empty_revoked_file_marked_nocrl :
    (genCertLists c3args).stats.nocrl = 1 ∧
    ((genCertLists c3args).stats.akis "A").map (fun r => r.crl) = some false ∧
    ((genCertLists c3args).stats.akis "A").map (fun r => r.revoked) = some 0 ∧
    (genCertLists c3args).nonrevokedCerts = ["A1"] := by decide

/-- C4: an issuer enumerated from the known directory whose revoked-set
load returns absent bumps the global nocrl counter by exactly one, appends
nothing to the revoked sequence, appends its entire known set to the
non-revoked sequence (the revoked set is treated as empty in the set
difference), and is still marked processed rather than skipped. -/
theorem known_only_issuer_counts_nocrl_once (args : Args) (s : GState) (aki : String)
    (content : FileContent) (hx : aki ∉ args.excludeaki)
    (habs : getCertList (args.revokedOf aki) aki = none) :
    (processKnownEntry args s (aki, content)).stats.nocrl = s.stats.nocrl + 1 ∧
    (processKnownEntry args s (aki, content)).revokedCerts = s.revokedCerts ∧
    (processKnownEntry args s (aki, content)).nonrevokedCerts =
      s.nonrevokedCerts ++ fingerprintsOf content aki ∧
    (processKnownEntry args s (aki, content)).processedAKIs = aki :: s.processedAKIs := by
  refine ⟨?_, ?_, ?_, ?_⟩
  · simp [processKnownEntry, hx, knownEntryStats_nocrl, habs, pyTruthy]
  · simp [processKnownEntry, hx, habs, pyListOr, pyTruthy]
  · simp [processKnownEntry, hx, habs, pyListOr_getCertList]
    simp [pyListOr, pyTruthy]
  · simp [processKnownEntry, hx]

/-- Store for the C4 witness: issuer A knows serial 1, no revocation data
anywhere. -/
def c4wargs : Args :=
  { excludeaki := [],
    knownWalk := [("A", .serials ["1"])],
    revokedOf := fun _ => .absent,
    revokedWalk := [] }

/-- Witness instantiating C4 at the concrete store `c4wargs`. -/
theorem known_only_issuer_counts_nocrl_once_witness :
    (processKnownEntry c4wargs initGState ("A", .serials ["1"])).stats.nocrl =
      initGState.stats.nocrl + 1 ∧
    (processKnownEntry c4wargs initGState ("A", .serials ["1"])).revokedCerts =
      initGState.revokedCerts ∧
    (processKnownEntry c4wargs initGState ("A", .serials ["1"])).nonrevokedCerts =
      initGState.nonrevokedCerts ++ fingerprintsOf (.serials ["1"]) "A" ∧
    (processKnownEntry c4wargs initGState ("A", .serials ["1"])).processedAKIs =
      "A" :: initGState.processedAKIs :=
  known_only_issuer_counts_nocrl_once c4wargs initGState "A" (.serials ["1"])
    (by decide) rfl

/-- C5: an issuer reached only by the revoked-directory walk (not excluded,
not among the processed akis) never contributes to either global sequence;
when its file parses, its revocations are counted into the global revoked
statistic and its per-issuer record gets crl = true with the revoked count;
when its load returns absent the nocrl counter is bumped instead. -/
theorem revoked_only_issuer_stats_only (args : Args) (s : GState) (aki : String)
    (content : FileContent) (hx : aki ∉ args.excludeaki) (hnp : aki ∉ s.processedAKIs) :
    (processRevokedEntry args s (aki, content)).revokedCerts = s.revokedCerts ∧
    (processRevokedEntry args s (aki, content)).nonrevokedCerts = s.nonrevokedCerts ∧
    (∀ l : List String, content = .serials l →
      (processRevokedEntry args s (aki, content)).stats.revoked =
        s.stats.revoked + ((l.map (fun t => aki ++ t)).dedup).length ∧
      ((processRevokedEntry args s (aki, content)).stats.akis aki).map (fun r => r.crl) =
        some true ∧
      ((processRevokedEntry args s (aki, content)).stats.akis aki).map (fun r => r.revoked) =
        some ((l.map (fun t => aki ++ t)).dedup).length) ∧
    (getCertList content aki = none →
      (processRevokedEntry args s (aki, content)).stats.nocrl = s.stats.nocrl + 1) := by
  refine ⟨(processRevokedEntry_seqs args s _).1, (processRevokedEntry_seqs args s _).2, ?_, ?_⟩
  · intro l hl
    subst hl
    refine ⟨?_, ?_, ?_⟩ <;>
      simp [processRevokedEntry, hx, hnp, revokedEntryStats, getCertList, updAKI]
  · intro habs
    simp [processRevokedEntry, hx, hnp, revokedEntryStats, habs]

/-- Store for the C5 witness: issuer B appears only in the revoked walk
with serial 9. -/
def c5wargs : Args :=
  { excludeaki := [],
    knownWalk := [],
    revokedOf := fun _ => .absent,
    revokedWalk := [("B", .serials ["9"])] }

/-- Witness instantiating C5 at the concrete store `c5wargs`. -/
theorem revoked_only_issuer_stats_only_witness :
    (processRevokedEntry c5wargs initGState ("B", .serials ["9"])).revokedCerts =
      initGState.revokedCerts ∧
    (processRevokedEntry c5wargs initGState ("B", .serials ["9"])).nonrevokedCerts =
      initGState.nonrevokedCerts ∧
    (∀ l : List String, FileContent.serials ["9"] = .serials l →
      (processRevokedEntry c5wargs initGState ("B", .serials ["9"])).stats.revoked =
        initGState.stats.revoked + ((l.map (fun t => "B" ++ t)).dedup).length ∧
      ((processRevokedEntry c5wargs initGState ("B", .serials ["9"])).stats.akis "B").map
        (fun r => r.crl) = some true ∧
      ((processRevokedEntry c5wargs initGState ("B", .serials ["9"])).stats.akis "B").map
        (fun r => r.revoked) = some ((l.map (fun t => "B" ++ t)).dedup).length) ∧
    (getCertList (.serials ["9"]) "B" = none →
      (processRevokedEntry c5wargs initGState ("B", .serials ["9"])).stats.nocrl =
        initGState.stats.nocrl + 1) :=
  revoked_only_issuer_stats_only c5wargs initGState "B" (.serials ["9"])
    (by decide) (by decide)

/-- Content written by `saveCertLists` to one cache file (lines 167-172):
every key followed by a newline, in sequence order. -/
def saveKeyList : List String → String
  | [] => ""
  | k :: rest => k ++ "\n" ++ saveKeyList rest

/-- Python text-file line iteration: lines keep their trailing newline, and
a final unterminated chunk is yielded as a line of its own. -/
def pyLines : List Char → List (List Char)
  | [] => []
  | c :: rest =>
    if c = '\n' then ['\n'] :: pyLines rest
    else
      match pyLines rest with
      | [] => [[c]]
      | l :: ls => (c :: l) :: ls

/-- Embeds the read loop of `loadCertLists` (lines 180-185): for each line
of the file, append `line[:-1]` — the line with its last character
removed. -/
def loadKeyList (content : String) : List String :=
  (pyLines content.data).map (fun l => String.mk l.dropLast)

/-- Embeds `saveCertLists` (lines 162-172): the contents written to the
revoked-keys file and the valid-keys file. -/
def saveCertLists (revoked_certs nonrevoked_certs : List String) : String × String :=
  (saveKeyList revoked_certs, saveKeyList nonrevoked_certs)

/-- Embeds `loadCertLists` (lines 175-185): both target lists are cleared
and refilled from the two files, so the result is just what the files
hold. -/
def loadCertLists (files : String × String) : List String × List String :=
  (loadKeyList files.1, loadKeyList files.2)

lemma pyLines_append_newline (xs ys : List Char) (h : '\n' ∉ xs) :
    pyLines (xs ++ '\n' :: ys) = (xs ++ ['\n']) :: pyLines ys := by
  induction xs with
  | nil => simp [pyLines]
  | cons c tl ih =>
    have hc : ¬(c = '\n') := fun e => h (e ▸ List.mem_cons_self c tl)
    have h2 : '\n' ∉ tl := fun m => h (List.mem_cons_of_mem _ m)
    rw [List.cons_append, pyLines, if_neg hc, ih h2]
    simp

lemma loadKeyList_saveKeyList (certs : List String) (h : ∀ s ∈ certs, '\n' ∉ s.data) :
    loadKeyList (saveKeyList certs) = certs := by
  induction certs with
  | nil => rfl
  | cons a tl ih =>
    have ha : '\n' ∉ a.data := h a (List.mem_cons_self a tl)
    have htl : ∀ s ∈ tl, '\n' ∉ s.data := fun s hs => h s (List.mem_cons_of_mem _ hs)
    have hdata : (saveKeyList (a :: tl)).data = a.data ++ '\n' :: (saveKeyList tl).data := by
      show (a ++ "\n" ++ saveKeyList tl).data = _
      rw [String.data_append, String.data_append]
      have hnl : ("\n" : String).data = ['\n'] := rfl
      rw [hnl, List.append_assoc]
      rfl
    unfold loadKeyList
    rw [hdata, pyLines_append_newline a.data _ ha, List.map_cons]
    have hfirst : String.mk (a.data ++ ['\n']).dropLast = a := by
      rw [List.dropLast_concat]
    rw [hfirst]
    have : (pyLines (saveKeyList tl).data).map (fun l => String.mk l.dropLast) = tl := ih htl
    rw [this]

/-- C6: the key-list cache round-trips exactly — for any sequences of
fingerprints containing no newline, loading the two files written by save
returns exactly the sequences passed to save, element for element and in
order. -/
theorem cache_roundtrip_exact (revoked_certs nonrevoked_certs : List String)
    (h1 : ∀ s ∈ revoked_certs, '\n' ∉ s.data)
    (h2 : ∀ s ∈ nonrevoked_certs, '\n' ∉ s.data) :
    loadCertLists (saveCertLists revoked_certs nonrevoked_certs) =
      (revoked_certs, nonrevoked_certs) := by
  unfold loadCertLists saveCertLists
  rw [loadKeyList_saveKeyList revoked_certs h1, loadKeyList_saveKeyList nonrevoked_certs h2]

/-- Witness instantiating C6 at concrete fingerprint sequences. -/
theorem cache_roundtrip_exact_witness :
    loadCertLists (saveCertLists ["A1"] ["B2", "B3"]) = (["A1"], ["B2", "B3"]) :=
  cache_roundtrip_exact ["A1"] ["B2", "B3"] (by decide) (by decide)

noncomputable section

/-- Embeds `getFPRs` (lines 187-188) over the reals:
`[len(revoked_certs) / (math.sqrt(2) * len(nonrevoked_certs)), 0.5]`. -/
def getFPRs (revoked_certs nonrevoked_certs : List String) : List ℝ :=
  [(revoked_certs.length : ℝ) / (Real.sqrt 2 * (nonrevoked_certs.length : ℝ)), 0.5]

/-- Divisor of the level-1 false-positive rate inside `getFPRs`. -/
def fprDivisor (nonrevoked_certs : List String) : ℝ :=
  Real.sqrt 2 * (nonrevoked_certs.length : ℝ)

/-- Divisor evaluated at filter generation in a non-cached run: `main`
(line 353) calls `generateMLBF` unconditionally once the cert lists are
built, and `generateMLBF` (line 192) evaluates `getFPRs` before any other
step — there is no guard between `genCertLists` and the division. -/
def mainFprDivisor (args : Args) : ℝ :=
  fprDivisor (genCertLists args).nonrevokedCerts

end

/-- C7 (amended): `getFPRs` returns exactly the two-level schedule
`[r / (√2 × n), 0.5]`, and at r = 10, n = 100 the first level lies in
(0.0707, 0.0708) — not 0.1414... as the spec example says. -/
theorem getFPRs_two_level_schedule :
    (∀ revoked_certs nonrevoked_certs : List String,
      getFPRs revoked_certs nonrevoked_certs =
        [(revoked_certs.length : ℝ) / (Real.sqrt 2 * (nonrevoked_certs.length : ℝ)), 0.5]) ∧
    (∃ v : ℝ, getFPRs (List.replicate 10 "r") (List.replicate 100 "n") = [v, 0.5] ∧
      (0.0707 : ℝ) < v ∧ v < (0.0708 : ℝ)) := by
  refine ⟨fun _ _ => rfl, ⟨(10 : ℝ) / (Real.sqrt 2 * 100), ?_, ?_, ?_⟩⟩
  · simp [getFPRs]
  · have h1 : Real.sqrt 2 < 1.4143 := by
      nlinarith [Real.sq_sqrt (show (0:ℝ) ≤ 2 by norm_num), Real.sqrt_nonneg 2]
    rw [lt_div_iff₀ (by positivity)]
    nlinarith [Real.sqrt_nonneg 2]
  · have h2 : (1.4142 : ℝ) < Real.sqrt 2 := by
      nlinarith [Real.sq_sqrt (show (0:ℝ) ≤ 2 by norm_num), Real.sqrt_nonneg 2]
    rw [div_lt_iff₀ (by positivity)]
    nlinarith

/-- C7 fails as stated: at r = 10, n = 100 the first level of the schedule
is 10 / (√2 × 100) < 0.1414, so its decimal expansion cannot begin with
0.1414 — the spec example doubled the true value 0.0707... . -/
theorem getFPRs_example_value_too_large :
    ∃ v : ℝ, getFPRs (List.replicate 10 "r") (List.replicate 100 "n") = [v, 0.5] ∧
      v < (0.1414 : ℝ) := by
  refine ⟨(10 : ℝ) / (Real.sqrt 2 * 100), ?_, ?_⟩
  · simp [getFPRs]
  · have h1 : (1.4142 : ℝ) < Real.sqrt 2 := by
      nlinarith [Real.sq_sqrt (show (0:ℝ) ≤ 2 by norm_num), Real.sqrt_nonneg 2]
    rw [div_lt_iff₀ (by positivity)]
    nlinarith

/-- C8 (amended): no call site guards the division — the divisor evaluated
at filter generation is zero exactly when the global non-revoked sequence
is empty, and such runs do reach the division (main invokes generateMLBF
unconditionally). -/
theorem mainFprDivisor_zero_iff_no_nonrevoked (args : Args) :
    mainFprDivisor args = 0 ↔ (genCertLists args).nonrevokedCerts = [] := by
  unfold mainFprDivisor fprDivisor
  constructor
  · intro h
    have hs : Real.sqrt 2 ≠ 0 := ne_of_gt (Real.sqrt_pos.2 (by norm_num))
    rcases mul_eq_zero.1 h with h1 | h1
    · exact absurd h1 hs
    · have : (genCertLists args).nonrevokedCerts.length = 0 := by exact_mod_cast h1
      exact List.length_eq_zero.1 this
  · intro h
    rw [h]
    simp

/-- Record store on which every known certificate is revoked: issuer A
knows serial 1 and revokes it, so the non-revoked sequence comes out
empty. -/
def c8args : Args :=
  { excludeaki := [],
    knownWalk := [("A", .serials ["1"])],
    revokedOf := fun _ => .serials ["1"],
    revokedWalk := [] }

/-- C8 fails as stated: the run over `c8args` reaches filter generation
with an empty non-revoked sequence and the division inside `getFPRs` is
evaluated with divisor √2 × 0 = 0 — no call site guards against it. -/
theorem main_reaches_zero_divisor :
    (genCertLists c8args).nonrevokedCerts = [] ∧ mainFprDivisor c8args = 0 := by
  have h : (genCertLists c8args).nonrevokedCerts = [] := by decide
  refine ⟨h, ?_⟩
  unfold mainFprDivisor fprDivisor
  rw [h]
  simp

/-- Externally observable step of the tail of `main` (lines 352-363). -/
inductive MainEvent where
  | verifyFilter : MainEvent
  | writeFilter : MainEvent
  | writeMeta : MainEvent
  | writePatch : MainEvent
  | writeStats : MainEvent
deriving DecidableEq

/-- Embeds `verifyMLBF` (lines 220-226): the check runs unless noVerify. -/
def verifyMLBFEvents (noVerify : Bool) : List MainEvent :=
  if noVerify = false then [MainEvent.verifyFilter] else []

/-- Embeds `saveMLBF` (lines 229-245): artifact, metadata, and the patch
when a diff base exists. -/
def saveMLBFEvents (hasDiffBase : Bool) : List MainEvent :=
  [MainEvent.writeFilter, MainEvent.writeMeta] ++
    (if hasDiffBase then [MainEvent.writePatch] else [])

/-- Embeds lines 355-363 of `main`: verification and serialization happen
only under `mlbf.bitCount() > 0`, and `saveStats` always runs last. -/
def mainFinalEvents (bitCount : Nat) (noVerify hasDiffBase : Bool) : List MainEvent :=
  (if bitCount > 0 then verifyMLBFEvents noVerify ++ saveMLBFEvents hasDiffBase else []) ++
    [MainEvent.writeStats]

/-- C9: with a zero filter bit count the verification pass and every
artifact write are skipped and the run performs exactly the statistics
write; in every run the statistics write is the last event. -/
theorem zero_bitcount_writes_only_stats :
    (∀ noVerify hasDiffBase : Bool,
      mainFinalEvents 0 noVerify hasDiffBase = [MainEvent.writeStats]) ∧
    (∀ bitCount : Nat, ∀ noVerify hasDiffBase : Bool,
      (mainFinalEvents bitCount noVerify hasDiffBase).getLast? = some MainEvent.writeStats) := by
  constructor
  · intro noVerify hasDiffBase
    rfl
  · intro bitCount noVerify hasDiffBase
    unfold mainFinalEvents
    exact List.getLast?_concat _

/-- Result of the cert-list phase of `main` (lines 312-333): the stats
object as it stands after the branch (`none` when no reconciliation
counter was ever inserted — the Python dict is still `{}`), and the two
cert sequences. -/
structure CertPhaseResult where
  reconStats : Option Stats
  revokedCerts : List String
  nonrevokedCerts : List String

/-- Cache-hit branch of `main` (lines 317-322): caching was requested and
both cache files exist, written by a previous run over the unchanged
record store, so their contents are `saveCertLists` of that run's
`genCertLists` output; `loadCertLists` refills the sequences and
`genCertLists` never runs, so the stats dict receives no reconciliation
counters. -/
def cachedCertPhase (args : Args) : CertPhaseResult :=
  let prev := genCertLists args
  let loaded := loadCertLists (saveCertLists prev.revokedCerts prev.nonrevokedCerts)
  { reconStats := none, revokedCerts := loaded.1, nonrevokedCerts := loaded.2 }

/-- Reconciliation branch of `main` (lines 323-328): `genCertLists`
populates both the sequences and the statistics object. -/
def freshCertPhase (args : Args) : CertPhaseResult :=
  { reconStats := some (genCertLists args).stats,
    revokedCerts := (genCertLists args).revokedCerts,
    nonrevokedCerts := (genCertLists args).nonrevokedCerts }

/-- C10 (amended): over an unchanged record store whose fingerprints hold
no newline, the cache-hit run feeds the filter pipeline exactly the
sequences a reconciling run would — downstream filter inputs are
identical — but the runs do not produce the same statistics file: the
cached run's stats object carries none of the reconciliation counters
while the fresh run's carries them all. -/
theorem cached_run_same_lists_different_stats (args : Args)
    (h1 : ∀ s ∈ (genCertLists args).revokedCerts, '\n' ∉ s.data)
    (h2 : ∀ s ∈ (genCertLists args).nonrevokedCerts, '\n' ∉ s.data) :
    (cachedCertPhase args).revokedCerts = (freshCertPhase args).revokedCerts ∧
    (cachedCertPhase args).nonrevokedCerts = (freshCertPhase args).nonrevokedCerts ∧
    (cachedCertPhase args).reconStats = none ∧
    (freshCertPhase args).reconStats = some (genCertLists args).stats := by
  refine ⟨?_, ?_, rfl, rfl⟩
  · show (loadCertLists (saveCertLists _ _)).1 = _
    unfold loadCertLists saveCertLists
    exact loadKeyList_saveKeyList _ h1
  · show (loadCertLists (saveCertLists _ _)).2 = _
    unfold loadCertLists saveCertLists
    exact loadKeyList_saveKeyList _ h2

/-- Record store for C10: issuer A knows serials 1 and 2 and revokes 2. -/
def c10args : Args :=
  { excludeaki := [],
    knownWalk := [("A", .serials ["1", "2"])],
    revokedOf := fun _ => .serials ["2"],
    revokedWalk := [] }

/-- C10 fails as stated: on `c10args` the cache-hit run's statistics
object holds no reconciliation counters at all, while the reconciling
run's statistics object holds them (for instance known = 2), so the
statistics files of the two runs differ. -/
theorem cached_run_stats_file_differs :
    (cachedCertPhase c10args).reconStats = none ∧
    ((freshCertPhase c10args).reconStats).isSome = true ∧
    ((freshCertPhase c10args).reconStats).map (fun st => st.known) = some 2 := by
  refine ⟨rfl, rfl, ?_⟩
  show some (genCertLists c10args).stats.known = some 2
  have : (genCertLists c10args).stats.known = 2 := by decide
  rw [this]

/-- Witness instantiating the amended C10 at the concrete store `c10args`. -/
theorem cached_run_same_lists_different_stats_witness :
    (cachedCertPhase c10args).revokedCerts = (freshCertPhase c10args).revokedCerts ∧
    (cachedCertPhase c10args).nonrevokedCerts = (freshCertPhase c10args).nonrevokedCerts ∧
    (cachedCertPhase c10args).reconStats = none ∧
    (freshCertPhase c10args).reconStats = some (genCertLists c10args).stats :=
  cached_run_same_lists_different_stats c10args (by decide) (by decide)

end CertsToCrlite
